import Mathlib

/-!
Shallow embedding of the event-sourced inventory ledger in
`DeepLeanring.ai - Agentic AI/M2_UGL_2/utils.py`:
`create_transactions_db`, `get_schema`, `execute_sql`.

Python's `random.Random` is modelled abstractly as a deterministic
state-passing generator `RandomGen` together with the range contracts its
documentation guarantees (`RandomGen.Lawful`).  Prices are rationals
(Python floats), rounding to two decimals is `round2`.  SQLite behaviour
is modelled explicitly: `id` is AUTOINCREMENT starting from 1 on a fresh
table, `ts` defaults to CURRENT_TIMESTAMP, i.e. the wall-clock time of
the row's insertion, which we pass in as an explicit `clock` oracle.
-/

namespace Ledger

/-- Scalar value stored in a query-result cell (SQLite/pandas scalar). -/
inductive Value where
  | int (i : Int)
  | real (q : ℚ)
  | text (s : String)
  | null
deriving DecidableEq, Repr

/-- One row of the `transactions` table, before the store assigns
`id` and `ts`.  Field names follow the CREATE TABLE statement. -/
structure Event where
  product_id : Int
  product_name : String
  brand : String
  category : String
  color : String
  action : String
  qty_delta : Int
  unit_price : Option ℚ
  notes : String
deriving DecidableEq, Repr

/-- A persisted row: the event plus the store-assigned `id`
(AUTOINCREMENT) and `ts` (CURRENT_TIMESTAMP at insertion). -/
structure Row extends Event where
  id : Nat
  ts : Nat
deriving DecidableEq, Repr

/-- The single `transactions` table: declared columns plus rows. -/
structure DBTable where
  columns : List (String × String)
  rows : List Row
deriving DecidableEq, Repr

/-- Tabular result of `execute_sql` (a pandas DataFrame). -/
structure QueryResult where
  columns : List String
  rows : List (List Value)
deriving DecidableEq, Repr

/-- Connection lifecycle events, used to state the resource contract of
`execute_sql` (`sqlite3.connect` / `conn.close()`). -/
inductive ConnEvent where
  | openConn
  | closeConn
deriving DecidableEq, Repr

/-- Abstract deterministic pseudorandom generator over state `σ`,
modelling the `random.Random` instance of the source.  Every operation
is a pure deterministic function of the state. -/
structure RandomGen (σ : Type) where
  randint : Int → Int → σ → Int × σ
  uniform : ℚ → ℚ → σ → ℚ × σ
  choice : List String → σ → String × σ
  choicesW : List String → List ℚ → σ → String × σ

/-- The documented range contracts of `random.Random`:
`randint a b` lands in `[a, b]`, `uniform a b` in `[a, b]`,
`choice`/`choices` return members of the population. -/
structure RandomGen.Lawful {σ : Type} (G : RandomGen σ) : Prop where
  randint_ge : ∀ a b s, a ≤ b → a ≤ (G.randint a b s).1
  randint_le : ∀ a b s, a ≤ b → (G.randint a b s).1 ≤ b
  uniform_ge : ∀ a b s, a ≤ b → a ≤ (G.uniform a b s).1
  uniform_le : ∀ a b s, a ≤ b → (G.uniform a b s).1 ≤ b
  choice_mem : ∀ l s, l ≠ [] → (G.choice l s).1 ∈ l
  choicesW_mem : ∀ l w s, l ≠ [] → (G.choicesW l w s).1 ∈ l

/-- Python `round(x, 2)` on our rational prices. -/
def round2 (x : ℚ) : ℚ := (round (x * 100) : ℤ) / 100

/-- brands catalog from the source. -/
def brands : List String := ["Nike", "Adidas", "Puma", "Reebok", "New Balance"]

/-- categories catalog from the source. -/
def categories : List String := ["shoes", "hoodie", "t-shirt", "hat", "backpack"]

/-- colors catalog from the source. -/
def colors : List String := ["black", "white", "red", "blue", "green"]

/-- Columns of the `transactions` table as declared by the CREATE TABLE
statement, in declaration order, with their declared types (what
`PRAGMA table_info` reports). -/
def transactionsColumns : List (String × String) :=
  [("id", "INTEGER"), ("product_id", "INTEGER"), ("product_name", "TEXT"),
   ("brand", "TEXT"), ("category", "TEXT"), ("color", "TEXT"),
   ("action", "TEXT"), ("qty_delta", "INTEGER"), ("unit_price", "REAL"),
   ("notes", "TEXT"), ("ts", "DATETIME")]

/-- One product-catalog entry built in the first loop of
`create_transactions_db`. -/
structure CatalogEntry where
  pid : Int
  name : String
  brand : String
  category : String
  color : String
  base_price : ℚ
deriving DecidableEq, Repr

/-- Python `str` whitespace test, used by `split()` and `strip()`. -/
def isPySpace (c : Char) : Bool :=
  c == ' ' || c == '\t' || c == '\n' || c == '\r' || c == '\x0b' || c == '\x0c'

/-- Worker for Python `str.split()` with no separator: split on runs of
whitespace, discarding empty pieces.  `acc` holds the reversed current
word. -/
def wordsAux : List Char → List Char → List (List Char)
  | [], acc => if acc.isEmpty then [] else [acc.reverse]
  | c :: cs, acc =>
    if isPySpace c then
      if acc.isEmpty then wordsAux cs [] else acc.reverse :: wordsAux cs []
    else wordsAux cs (c :: acc)

/-- Python `name.split()`. -/
def pySplit (s : String) : List String :=
  (wordsAux s.toList []).map String.mk

/-- Build one catalog entry: sample brand, category, color and base
price exactly as the source does (`name.split()` indexing included). -/
def mkProduct {σ : Type} (G : RandomGen σ) (pid : Int) (s : σ) :
    CatalogEntry × σ :=
  let r1 := G.choice brands s
  let r2 := G.choice categories r1.2
  let name := r1.1 ++ " " ++ r2.1
  let brand := (pySplit name).getD 0 ""
  let category := (pySplit name).getD 1 ""
  let r3 := G.choice colors r2.2
  let r4 := G.uniform 20 150 r3.2
  ({ pid := pid, name := name, brand := brand, category := category,
     color := r3.1, base_price := round2 r4.1 }, r4.2)

/-- The catalog loop `for pid in range(1, n_products + 1)`. -/
def buildCatalog {σ : Type} (G : RandomGen σ) :
    Nat → Int → σ → List CatalogEntry × σ
  | 0, _, s => ([], s)
  | n + 1, pid, s =>
    let r := mkProduct G pid s
    let rest := buildCatalog G n (pid + 1) r.2
    (r.1 :: rest.1, rest.2)

/-- The mandatory opening `insert` event of a product. -/
def insertEvent (c : CatalogEntry) (stock : Int) : Event :=
  { product_id := c.pid, product_name := c.name, brand := c.brand,
    category := c.category, color := c.color, action := "insert",
    qty_delta := stock, unit_price := some c.base_price,
    notes := "Initial insert with stock=" ++ toString stock ++
      ", price=" ++ toString c.base_price }

/-- Population and weights of the follow-up action draw. -/
def actionKinds : List String := ["restock", "sale", "price_update"]

/-- Weights 0.25 / 0.6 / 0.15 from the source. -/
def actionWeights : List ℚ := [0.25, 0.6, 0.15]

/-- One iteration of the follow-up event loop: draw the action kind,
then build the event, returning the event, the updated running current
price and the updated generator state. -/
def followupStep {σ : Type} (G : RandomGen σ) (c : CatalogEntry)
    (cp : ℚ) (s : σ) : Event × ℚ × σ :=
  let rA := G.choicesW actionKinds actionWeights s
  if rA.1 = "restock" then
    let rq := G.randint 1 25 rA.2
    ({ product_id := c.pid, product_name := c.name, brand := c.brand,
       category := c.category, color := c.color, action := "restock",
       qty_delta := rq.1, unit_price := none,
       notes := "Restock +" ++ toString rq.1 ++ " units" }, cp, rq.2)
  else if rA.1 = "sale" then
    let rq := G.randint 1 10 rA.2
    ({ product_id := c.pid, product_name := c.name, brand := c.brand,
       category := c.category, color := c.color, action := "sale",
       qty_delta := -rq.1, unit_price := some cp,
       notes := "Sale " ++ toString rq.1 ++ " units at " ++ toString cp },
     cp, rq.2)
  else
    let rd := G.uniform (-5) 5 rA.2
    let delta := round2 rd.1
    let np := max 1 (round2 (cp + delta))
    ({ product_id := c.pid, product_name := c.name, brand := c.brand,
       category := c.category, color := c.color, action := "price_update",
       qty_delta := 0, unit_price := some np,
       notes := "Price update to " ++ toString np }, np, rd.2)

/-- The follow-up loop `for _ in range(n_txns_per_product - 1)`,
threading the running current price. -/
def followups {σ : Type} (G : RandomGen σ) (c : CatalogEntry) :
    Nat → ℚ → σ → List Event × σ
  | 0, _, s => ([], s)
  | k + 1, cp, s =>
    let r := followupStep G c cp s
    let rest := followups G c k r.2.1 r.2.2
    (r.1 :: rest.1, rest.2)

/-- All events of one product: the opening insert (stock from
`randint(5, 50)`) followed by the K-1 follow-up events, with the running
current price initialised to the base price. -/
def productEvents {σ : Type} (G : RandomGen σ) (n_txns : Nat)
    (c : CatalogEntry) (s : σ) : List Event × σ :=
  let r0 := G.randint 5 50 s
  let rest := followups G c (n_txns - 1) c.base_price r0.2
  (insertEvent c r0.1 :: rest.1, rest.2)

/-- The outer per-product loop, concatenating each product's block. -/
def eventsForCatalog {σ : Type} (G : RandomGen σ) (n_txns : Nat) :
    List CatalogEntry → σ → List Event × σ
  | [], s => ([], s)
  | c :: cs, s =>
    let r := productEvents G n_txns c s
    let rest := eventsForCatalog G n_txns cs r.2
    (r.1 ++ rest.1, rest.2)

/-- The full event sequence of a generation run, in insertion order. -/
def generateEvents {σ : Type} (G : RandomGen σ) (s : σ)
    (n_products n_txns : Nat) : List Event :=
  let cat := buildCatalog G n_products 1 s
  (eventsForCatalog G n_txns cat.1 cat.2).1

/-- The store assigns AUTOINCREMENT ids i+1, i+2, ... and stamps each
row with the clock value at its insertion. -/
def addIds (clock : Nat → Nat) : Nat → List Event → List Row
  | _, [] => []
  | i, e :: es =>
    { toEvent := e, id := i + 1, ts := clock i } :: addIds clock (i + 1) es

/-- `create_transactions_db`: drop and recreate the `transactions`
table, then insert the generated events.  The prior contents of the
target are discarded (DROP TABLE IF EXISTS), so the result does not
depend on them; ids restart at 1 and `ts` comes from the wall clock. -/
def create_transactions_db {σ : Type} (G : RandomGen σ) (s : σ)
    (n_products n_txns_per_product : Nat) (clock : Nat → Nat) : DBTable :=
  { columns := transactionsColumns,
    rows := addIds clock 0 (generateEvents G s n_products n_txns_per_product) }

/-- `str.strip()` on a character list. -/
def stripChars (l : List Char) : List Char :=
  ((l.dropWhile isPySpace).reverse.dropWhile isPySpace).reverse

/-- Match `p` against the front of `l`; on success return the rest. -/
def dropPre : List Char → List Char → Option (List Char)
  | [], l => some l
  | _ :: _, [] => none
  | p :: ps, c :: cs => if p = c then dropPre ps cs else none

/-- Python `str.removeprefix`. -/
def removePre (p l : List Char) : List Char :=
  match dropPre p l with
  | some r => r
  | none => l

/-- Python `str.removesuffix`. -/
def removeSuf (p l : List Char) : List Char :=
  match dropPre p.reverse l.reverse with
  | some r => r.reverse
  | none => l

/-- The sanitizer inlined in `execute_sql`:
`query.strip().removeprefix("```sql").removesuffix("```").strip()`. -/
def sanitize (query : String) : String :=
  String.mk (stripChars (removeSuf "```".toList
    (removePre "```sql".toList (stripChars query.toList))))

/-- `execute_sql` instrumented with its connection-event trace:
`sqlite3.connect` emits `openConn`; the `finally` clause runs
`conn.close()` (`closeConn`) on the success return and on the
exception-recovery return alike.  The pandas/sqlite query engine is the
`read_sql_query` oracle; a Python exception is its `Except.error`. -/
def execute_sql_tr
    (read_sql_query : String → Option DBTable → Except String QueryResult)
    (query : String) (db_path : Option DBTable) :
    QueryResult × List ConnEvent :=
  let q := sanitize query
  match read_sql_query q db_path with
  | Except.ok t => (t, [ConnEvent.openConn, ConnEvent.closeConn])
  | Except.error e =>
    ({ columns := ["error"], rows := [[Value.text e]] },
     [ConnEvent.openConn, ConnEvent.closeConn])

/-- `execute_sql` as seen by the caller: the DataFrame only. -/
def execute_sql
    (read_sql_query : String → Option DBTable → Except String QueryResult)
    (query : String) (db_path : Option DBTable) : QueryResult :=
  (execute_sql_tr read_sql_query query db_path).1

/-- `sqlite3.connect`: when the database file is absent it is created
empty; connecting never fails on absence. -/
def connectDB (store : Option DBTable) : Except String (Option DBTable) :=
  Except.ok store

/-- `PRAGMA table_info(transactions)`: on a missing table it returns an
empty row list, not an error. -/
def table_info (db : Option DBTable) :
    Except String (List (String × String)) :=
  Except.ok (match db with
    | none => []
    | some t => t.columns)

/-- `get_schema`: connect, read `PRAGMA table_info(transactions)`, and
format the header line plus one `name (type)` line per column.  The
`Except` layer carries any Python exception of the steps. -/
def get_schema (store : Option DBTable) : Except String String :=
  match connectDB store with
  | Except.error e => Except.error e
  | Except.ok db =>
    match table_info db with
    | Except.error e => Except.error e
    | Except.ok rows =>
      Except.ok ("table name: transactions\n" ++
        String.intercalate "\n" (rows.map (fun r => r.1 ++ " (" ++ r.2 ++ ")")))

/-- Split a character list at every occurrence of `sep` (the pieces
between separators, empties kept), structurally recursive. -/
def splitChar (sep : Char) : List Char → List Char → List (List Char)
  | [], acc => [acc.reverse]
  | c :: cs, acc =>
    if c = sep then acc.reverse :: splitChar sep cs []
    else splitChar sep cs (c :: acc)

/-- Split a string into its newline-separated lines. -/
def splitLines (s : String) : List String :=
  (splitChar '\n' s.toList []).map String.mk

/-- Whether an `Except` value is a success. -/
def exceptIsOk {ε α : Type} : Except ε α → Bool
  | Except.ok _ => true
  | Except.error _ => false

/-- Event-sourced stock of product `p` at cutoff id `t`: the sum of
`qty_delta` over the product's rows with `id ≤ t`. -/
def stockAt (p : Int) (t : Nat) (rows : List Row) : Int :=
  (rows.filter (fun r => r.product_id == p && decide (r.id ≤ t))).foldl
    (fun acc r => acc + r.qty_delta) 0

/-- A concrete lawful generator used for witnesses: `randint` returns
the upper bound, `uniform` the lower bound, `choice` the head, and the
weighted draw the element at index `k` (clamped into range). -/
def pickGen (k : Nat) : RandomGen Unit where
  randint := fun _ b _ => (b, ())
  uniform := fun a _ _ => (a, ())
  choice := fun l _ => (l.headD "", ())
  choicesW := fun l _ _ => (l.getD (min k (l.length - 1)) "", ())

/-- Row stripped of its store-assigned timestamp. -/
def dropTs (r : Row) : Event × Nat := (r.toEvent, r.id)

/-- A dummy row used as the `headD` default in witnesses. -/
def dRow : Row :=
  { product_id := 0, product_name := "", brand := "", category := "",
    color := "", action := "", qty_delta := 0, unit_price := none,
    notes := "", id := 0, ts := 0 }

/-- The per-event invariant the generator maintains: the action is one
of the four kinds, quantity deltas stay inside the drawn ranges with
the documented signs, and the price is carried exactly on insert, sale
and price_update events. -/
def eventInv (e : Event) : Prop :=
  (e.action = "insert" ∨ e.action = "restock" ∨ e.action = "sale" ∨
    e.action = "price_update") ∧
  (e.action = "insert" →
    5 ≤ e.qty_delta ∧ e.qty_delta ≤ 50 ∧ e.unit_price.isSome = true) ∧
  (e.action = "restock" →
    1 ≤ e.qty_delta ∧ e.qty_delta ≤ 25 ∧ e.unit_price = none) ∧
  (e.action = "sale" →
    -10 ≤ e.qty_delta ∧ e.qty_delta ≤ -1 ∧ e.unit_price.isSome = true) ∧
  (e.action = "price_update" → e.qty_delta = 0 ∧ e.unit_price.isSome = true)

/-- The backtick character (whose literal cannot appear outside a
string in this development). -/
def bt : Char := Char.ofNat 96

/-- A concrete catalog entry for witnesses. -/
def cDemo : CatalogEntry :=
  { pid := 1, name := "Nike shoes", brand := "Nike", category := "shoes",
    color := "black", base_price := 20 }

/-- A concrete generated store for witnesses: one product, one event. -/
def demoDB : DBTable := create_transactions_db (pickGen 0) () 1 1 (fun _ => 0)

/-! ### Helper lemmas -/

theorem getD_mem_of_lt {α : Type} (d : α) :
    ∀ (l : List α) (n : Nat), n < l.length → l.getD n d ∈ l
  | a :: t, 0, _ => by simp
  | a :: t, n + 1, h => by
    have hm := getD_mem_of_lt d t n (by simpa using Nat.lt_of_succ_lt_succ h)
    simpa using Or.inr hm

theorem pickGen_lawful (k : Nat) : (pickGen k).Lawful where
  randint_ge := fun _ _ _ h => h
  randint_le := fun _ b _ _ => le_refl b
  uniform_ge := fun a _ _ _ => le_refl a
  uniform_le := fun _ _ _ h => h
  choice_mem := fun l _ hl => by
    cases l with
    | nil => exact absurd rfl hl
    | cons a t => simp [pickGen]
  choicesW_mem := fun l _ _ hl => by
    cases l with
    | nil => exact absurd rfl hl
    | cons a t =>
      have hlt : min k ((a :: t).length - 1) < (a :: t).length := by
        simp only [List.length_cons]
        omega
      exact getD_mem_of_lt "" (a :: t) _ hlt

theorem followupStep_pid {σ : Type} (G : RandomGen σ) (c : CatalogEntry)
    (cp : ℚ) (s : σ) : (followupStep G c cp s).1.product_id = c.pid := by
  simp only [followupStep]
  split_ifs <;> rfl

theorem followups_pid {σ : Type} (G : RandomGen σ) (c : CatalogEntry) :
    ∀ (k : Nat) (cp : ℚ) (s : σ) (e : Event),
      e ∈ (followups G c k cp s).1 → e.product_id = c.pid
  | 0, cp, s, e, h => by simp [followups] at h
  | k + 1, cp, s, e, h => by
    simp only [followups, List.mem_cons] at h
    rcases h with h | h
    · exact h ▸ followupStep_pid G c cp s
    · exact followups_pid G c k _ _ e h

theorem productEvents_pid {σ : Type} (G : RandomGen σ) (n : Nat)
    (c : CatalogEntry) (s : σ) (e : Event)
    (h : e ∈ (productEvents G n c s).1) : e.product_id = c.pid := by
  simp only [productEvents, List.mem_cons] at h
  rcases h with h | h
  · exact h ▸ rfl
  · exact followups_pid G c _ _ _ e h

theorem followupStep_inv {σ : Type} {G : RandomGen σ} (hG : G.Lawful)
    (c : CatalogEntry) (cp : ℚ) (s : σ) :
    eventInv (followupStep G c cp s).1 := by
  simp only [followupStep, eventInv]
  split_ifs with h1 h2
  · refine ⟨Or.inr (Or.inl rfl), ?_, ?_, ?_, ?_⟩
    · intro h
      simp at h
    · intro _
      exact ⟨hG.randint_ge 1 25 _ (by decide), hG.randint_le 1 25 _ (by decide),
        rfl⟩
    · intro h
      simp at h
    · intro h
      simp at h
  · have hq1 := hG.randint_ge 1 10 (G.choicesW actionKinds actionWeights s).2
      (by decide)
    have hq2 := hG.randint_le 1 10 (G.choicesW actionKinds actionWeights s).2
      (by decide)
    refine ⟨Or.inr (Or.inr (Or.inl rfl)), ?_, ?_, ?_, ?_⟩
    · intro h
      simp at h
    · intro h
      simp at h
    · intro _
      refine ⟨?_, ?_, rfl⟩
      · show (-10 : Int) ≤
          -(G.randint 1 10 (G.choicesW actionKinds actionWeights s).2).1
        omega
      · show -(G.randint 1 10 (G.choicesW actionKinds actionWeights s).2).1
          ≤ (-1 : Int)
        omega
    · intro h
      simp at h
  · refine ⟨Or.inr (Or.inr (Or.inr rfl)), ?_, ?_, ?_, fun _ => ⟨rfl, rfl⟩⟩
    · intro h
      simp at h
    · intro h
      simp at h
    · intro h
      simp at h

theorem insertEvent_inv (c : CatalogEntry) (stock : Int)
    (h5 : 5 ≤ stock) (h50 : stock ≤ 50) : eventInv (insertEvent c stock) := by
  refine ⟨Or.inl rfl, fun _ => ⟨h5, h50, rfl⟩, ?_, ?_, ?_⟩
  · intro h
    simp [insertEvent] at h
  · intro h
    simp [insertEvent] at h
  · intro h
    simp [insertEvent] at h

theorem followups_inv {σ : Type} {G : RandomGen σ} (hG : G.Lawful)
    (c : CatalogEntry) :
    ∀ (k : Nat) (cp : ℚ) (s : σ) (e : Event),
      e ∈ (followups G c k cp s).1 → eventInv e
  | 0, cp, s, e, h => by simp [followups] at h
  | k + 1, cp, s, e, h => by
    simp only [followups, List.mem_cons] at h
    rcases h with h | h
    · exact h ▸ followupStep_inv hG c cp s
    · exact followups_inv hG c k _ _ e h

theorem productEvents_inv {σ : Type} {G : RandomGen σ} (hG : G.Lawful)
    (n : Nat) (c : CatalogEntry) (s : σ) (e : Event)
    (h : e ∈ (productEvents G n c s).1) : eventInv e := by
  simp only [productEvents, List.mem_cons] at h
  rcases h with h | h
  · exact h ▸ insertEvent_inv c _ (hG.randint_ge 5 50 s (by decide))
      (hG.randint_le 5 50 s (by decide))
  · exact followups_inv hG c _ _ _ e h

theorem eventsForCatalog_inv {σ : Type} {G : RandomGen σ} (hG : G.Lawful)
    (n : Nat) :
    ∀ (cat : List CatalogEntry) (s : σ) (e : Event),
      e ∈ (eventsForCatalog G n cat s).1 → eventInv e
  | [], s, e, h => by simp [eventsForCatalog] at h
  | c :: cs, s, e, h => by
    simp only [eventsForCatalog, List.mem_append] at h
    rcases h with h | h
    · exact productEvents_inv hG n c _ e h
    · exact eventsForCatalog_inv hG n cs _ e h

theorem addIds_toEvent_mem {clock : Nat → Nat} :
    ∀ (es : List Event) (i : Nat) (r : Row),
      r ∈ addIds clock i es → r.toEvent ∈ es
  | [], i, r, h => by simp [addIds] at h
  | e :: es, i, r, h => by
    simp only [addIds, List.mem_cons] at h
    rcases h with h | h
    · subst h
      exact List.mem_cons_self _ _
    · exact List.mem_cons_of_mem e (addIds_toEvent_mem es (i + 1) r h)

theorem rows_inv {σ : Type} {G : RandomGen σ} (hG : G.Lawful) (s : σ)
    (N K : Nat) (clock : Nat → Nat) (r : Row)
    (hr : r ∈ (create_transactions_db G s N K clock).rows) :
    eventInv r.toEvent := by
  have hm : r.toEvent ∈ generateEvents G s N K :=
    addIds_toEvent_mem (generateEvents G s N K) 0 r hr
  exact eventsForCatalog_inv hG K _ _ r.toEvent hm

theorem addIds_lt_id {clock : Nat → Nat} :
    ∀ (es : List Event) (i : Nat) (r : Row), r ∈ addIds clock i es → i < r.id
  | [], i, r, h => by simp [addIds] at h
  | e :: es, i, r, h => by
    simp only [addIds, List.mem_cons] at h
    rcases h with h | h
    · subst h
      exact Nat.lt_succ_self i
    · exact Nat.lt_of_succ_lt (addIds_lt_id es (i + 1) r h)

theorem addIds_pairwise {clock : Nat → Nat} :
    ∀ (es : List Event) (i : Nat),
      (addIds clock i es).Pairwise (fun a b => a.id < b.id)
  | [], i => List.Pairwise.nil
  | e :: es, i => by
    refine List.pairwise_cons.mpr ⟨?_, addIds_pairwise es (i + 1)⟩
    intro r hr
    exact addIds_lt_id es (i + 1) r hr

theorem addIds_filter_head {clock : Nat → Nat} (p : Int) :
    ∀ (es : List Event) (i : Nat),
      (((addIds clock i es).filter (fun r => r.product_id == p)).head?).map
          Row.toEvent
        = ((es.filter (fun e => e.product_id == p)).head?)
  | [], i => by simp [addIds]
  | e :: es, i => by
    by_cases hpe : (e.product_id == p) = true
    · have h1 : (addIds clock i (e :: es)).filter (fun r => r.product_id == p)
          = { toEvent := e, id := i + 1, ts := clock i } ::
            (addIds clock (i + 1) es).filter (fun r => r.product_id == p) := by
        simp only [addIds]
        rw [List.filter_cons_of_pos]
        exact hpe
      have h2 : (e :: es).filter (fun x => x.product_id == p)
          = e :: es.filter (fun x => x.product_id == p) := by
        rw [List.filter_cons_of_pos]
        exact hpe
      rw [h1, h2]
      rfl
    · have h1 : (addIds clock i (e :: es)).filter (fun r => r.product_id == p)
          = (addIds clock (i + 1) es).filter (fun r => r.product_id == p) := by
        simp only [addIds]
        rw [List.filter_cons_of_neg]
        exact hpe
      have h2 : (e :: es).filter (fun x => x.product_id == p)
          = es.filter (fun x => x.product_id == p) := by
        rw [List.filter_cons_of_neg]
        exact hpe
      rw [h1, h2]
      exact addIds_filter_head p es (i + 1)

theorem head_filter_eq_of_min (pred : Row → Bool) :
    ∀ (l : List Row), l.Pairwise (fun a b => a.id < b.id) →
      ∀ r, r ∈ l → pred r = true → (∀ x ∈ l, pred x = true → r.id ≤ x.id) →
      (l.filter pred).head? = some r
  | [], _, r, hr, _, _ => absurd hr (List.not_mem_nil r)
  | a :: t, hp, r, hr, hpr, hmin => by
    rcases List.pairwise_cons.mp hp with ⟨ha, ht⟩
    by_cases hpa : pred a = true
    · have hra : r = a := by
        rcases List.mem_cons.mp hr with h | h
        · exact h
        · have h1 : a.id < r.id := ha r h
          have h2 : r.id ≤ a.id := hmin a (List.mem_cons_self a t) hpa
          omega
      rw [List.filter_cons_of_pos hpa, hra]
      rfl
    · have hrt : r ∈ t := by
        rcases List.mem_cons.mp hr with h | h
        · exact absurd (h ▸ hpr) hpa
        · exact h
      rw [List.filter_cons_of_neg hpa]
      exact head_filter_eq_of_min pred t ht r hrt hpr
        (fun x hx hpx => hmin x (List.mem_cons_of_mem a hx) hpx)

theorem eventsForCatalog_filter_head {σ : Type} {G : RandomGen σ}
    (hG : G.Lawful) (n : Nat) :
    ∀ (cat : List CatalogEntry) (s : σ) (p : Int) (e : Event),
      ((eventsForCatalog G n cat s).1.filter
          (fun x => x.product_id == p)).head? = some e →
      e.action = "insert" ∧ 0 < e.qty_delta ∧ e.unit_price.isSome = true
  | [], s, p, e, h => by simp [eventsForCatalog] at h
  | c :: cs, s, p, e, h => by
    rw [show (eventsForCatalog G n (c :: cs) s).1
        = (productEvents G n c s).1 ++
          (eventsForCatalog G n cs (productEvents G n c s).2).1 from rfl,
      List.filter_append] at h
    by_cases hp : c.pid = p
    · have hself : (productEvents G n c s).1.filter (fun x => x.product_id == p)
          = (productEvents G n c s).1 := by
        rw [List.filter_eq_self]
        intro x hx
        have := productEvents_pid G n c s x hx
        simp [this, hp]
      rw [hself] at h
      rw [show (productEvents G n c s).1
          = insertEvent c (G.randint 5 50 s).1 ::
            (followups G c (n - 1) c.base_price (G.randint 5 50 s).2).1
          from rfl] at h
      simp only [List.cons_append, List.head?_cons, Option.some.injEq] at h
      subst h
      have h5 := hG.randint_ge 5 50 s (by decide)
      refine ⟨rfl, ?_, rfl⟩
      show (0 : Int) < (G.randint 5 50 s).1
      omega
    · have hnil : (productEvents G n c s).1.filter (fun x => x.product_id == p)
          = [] := by
        rw [List.filter_eq_nil_iff]
        intro x hx
        have := productEvents_pid G n c s x hx
        simp [this, hp]
      rw [hnil, List.nil_append] at h
      exact eventsForCatalog_filter_head hG n cs _ p e h

theorem addIds_map_dropTs (clock1 clock2 : Nat → Nat) :
    ∀ (es : List Event) (i : Nat),
      (addIds clock1 i es).map dropTs = (addIds clock2 i es).map dropTs
  | [], i => rfl
  | e :: es, i => by
    simp only [addIds, List.map_cons]
    rw [addIds_map_dropTs clock1 clock2 es (i + 1)]
    rfl

theorem dropPre_append : ∀ (p l : List Char), dropPre p (p ++ l) = some l
  | [], l => rfl
  | c :: ps, l => by
    simp only [List.cons_append, dropPre, if_pos rfl]
    exact dropPre_append ps l

theorem removePre_append (p l : List Char) : removePre p (p ++ l) = l := by
  rw [removePre, dropPre_append]

theorem removeSuf_append (p l : List Char) : removeSuf p (l ++ p) = l := by
  rw [removeSuf, List.reverse_append, dropPre_append]
  simp

theorem dropWhile_len_le (pf : Char → Bool) :
    ∀ (u : List Char), (List.dropWhile pf u).length ≤ u.length
  | [] => Nat.le_refl 0
  | a :: t => by
    rw [List.dropWhile_cons]
    by_cases hpa : pf a = true
    · rw [if_pos hpa]
      exact Nat.le_succ_of_le (dropWhile_len_le pf t)
    · simp [hpa]

theorem dropWhile_head_false (pf : Char → Bool) (c : Char) (t : List Char)
    (h : List.dropWhile pf (c :: t) = c :: t) : pf c = false := by
  cases hpc : pf c
  · rfl
  · exfalso
    rw [List.dropWhile_cons, hpc, if_pos rfl] at h
    have hlen : (List.dropWhile pf t).length ≤ t.length := dropWhile_len_le pf t
    rw [h] at hlen
    simp at hlen

theorem stripChars_eq_self (l : List Char)
    (h1 : l.dropWhile isPySpace = l)
    (h2 : l.reverse.dropWhile isPySpace = l.reverse) : stripChars l = l := by
  rw [stripChars, h1, h2, List.reverse_reverse]

theorem stripChars_bt_ends (m : List Char) :
    stripChars (bt :: (m ++ [bt])) = bt :: (m ++ [bt]) := by
  have hbt : isPySpace bt = false := by decide
  apply stripChars_eq_self
  · rw [List.dropWhile_cons, hbt]
    simp
  · have hrev : (bt :: (m ++ [bt])).reverse = bt :: (m.reverse ++ [bt]) := by
      simp
    rw [hrev, List.dropWhile_cons, hbt]
    simp

theorem stripChars_nl_pad (b : List Char)
    (hb1 : b.dropWhile isPySpace = b)
    (hb2 : b.reverse.dropWhile isPySpace = b.reverse) :
    stripChars ('\n' :: (b ++ ['\n'])) = b := by
  rw [stripChars]
  have hnl : isPySpace '\n' = true := by decide
  rw [List.dropWhile_cons, hnl, if_pos rfl]
  cases b with
  | nil => decide
  | cons c t =>
    have hc : isPySpace c = false := dropWhile_head_false isPySpace c t hb1
    rw [List.cons_append, List.dropWhile_cons, hc]
    simp only [Bool.false_eq_true, if_false]
    have h3 : (c :: (t ++ ['\n'])).reverse = '\n' :: (c :: t).reverse := by
      simp
    rw [h3, List.dropWhile_cons, hnl, if_pos rfl, hb2]
    simp

theorem demo_head_mem :
    demoDB.rows.headD dRow ∈
      (create_transactions_db (pickGen 0) () 1 1 (fun _ => 0)).rows := by
  have h : (create_transactions_db (pickGen 0) () 1 1 (fun _ => 0)).rows
      = demoDB.rows.headD dRow :: [] := rfl
  rw [h]
  exact List.mem_cons_self _ _

theorem get_schema_some (t : DBTable) :
    get_schema (some t) = Except.ok ("table name: transactions\n" ++
      String.intercalate "\n"
        (t.columns.map (fun r => r.1 ++ " (" ++ r.2 ++ ")"))) := rfl

/-! ### Claim theorems -/

/-- C1, amended: two generation runs with identical inputs (generator,
seed state, product count, events-per-product count; catalogs and
ranges are fixed constants) produce identical event sequences in every
column except `ts` — the `ts` column is assigned by the store from the
wall clock at insertion time and may differ between runs. -/
theorem claim_C1_amended {σ : Type} (G : RandomGen σ) (s : σ) (N K : Nat)
    (clock1 clock2 : Nat → Nat) :
    (create_transactions_db G s N K clock1).rows.map dropTs
      = (create_transactions_db G s N K clock2).rows.map dropTs :=
  addIds_map_dropTs clock1 clock2 (generateEvents G s N K) 0

/-- C1, counterexample: two runs of `create_transactions_db` with
identical generator inputs (seed state, N = 1, K = 1, same catalogs and
ranges) against fresh targets, performed at different wall-clock times,
do not produce rows with equal values in every column: the `ts` column
differs. -/
theorem claim_C1_counterexample :
    (create_transactions_db (pickGen 0) () 1 1 (fun _ => 0)).rows ≠
      (create_transactions_db (pickGen 0) () 1 1 (fun _ => 1)).rows := by
  intro h
  have h2 : ((create_transactions_db (pickGen 0) () 1 1
        (fun _ => 0)).rows.headD dRow).ts
      = ((create_transactions_db (pickGen 0) () 1 1
        (fun _ => 1)).rows.headD dRow).ts :=
    congrArg (fun l => (l.headD dRow).ts) h
  have e0 : ((create_transactions_db (pickGen 0) () 1 1
      (fun _ => 0)).rows.headD dRow).ts = 0 := rfl
  have e1 : ((create_transactions_db (pickGen 0) () 1 1
      (fun _ => 1)).rows.headD dRow).ts = 1 := rfl
  rw [e0, e1] at h2
  exact absurd h2 (by decide)

/-- C2: whenever the query engine fails with message `m` on the
sanitized query, `execute_sql` raises nothing and returns a tabular
result with exactly one column named `error` and exactly one row whose
single value is the failure's textual message. -/
theorem claim_C2
    (read_sql_query : String → Option DBTable → Except String QueryResult)
    (query : String) (db_path : Option DBTable) (m : String)
    (hfail : read_sql_query (sanitize query) db_path = Except.error m) :
    (execute_sql read_sql_query query db_path).columns = ["error"] ∧
      (execute_sql read_sql_query query db_path).rows = [[Value.text m]] := by
  simp only [execute_sql, execute_sql_tr, hfail]
  exact ⟨trivial, trivial⟩

/-- C2 witness: a missing-table failure becomes the one-column,
one-row `error` table. -/
theorem claim_C2_witness :
    (execute_sql (fun _ _ => Except.error "no such table: does_not_exist")
        "SELECT * FROM does_not_exist" none).columns = ["error"] ∧
      (execute_sql (fun _ _ => Except.error "no such table: does_not_exist")
        "SELECT * FROM does_not_exist" none).rows
        = [[Value.text "no such table: does_not_exist"]] :=
  claim_C2 (fun _ _ => Except.error "no such table: does_not_exist")
    "SELECT * FROM does_not_exist" none "no such table: does_not_exist" rfl

/-- C3, amended: the sanitizer strips surrounding whitespace and
removes the leading fence only when it is literally the six characters
of a backtick-backtick-backtick-sql opening (a bare fence, or one with
any other language tag, is left in place), together with an optional
trailing triple-backtick fence; for a body with no leading or trailing
whitespace wrapped in the sql-tagged fence it returns exactly the
body. -/
theorem claim_C3_amended (b : List Char)
    (hb1 : b.dropWhile isPySpace = b)
    (hb2 : b.reverse.dropWhile isPySpace = b.reverse) :
    sanitize (String.mk ([bt, bt, bt, 's', 'q', 'l', '\n'] ++ b ++
        ['\n', bt, bt, bt])) = String.mk b := by
  have e1 : [bt, bt, bt, 's', 'q', 'l', '\n'] ++ b ++ ['\n', bt, bt, bt]
      = bt :: (([bt, bt, 's', 'q', 'l', '\n'] ++ b ++ ['\n', bt, bt])
        ++ [bt]) := by
    simp
  have hstrip1 :=
    stripChars_bt_ends ([bt, bt, 's', 'q', 'l', '\n'] ++ b ++ ['\n', bt, bt])
  rw [sanitize]
  show String.mk (stripChars (removeSuf "```".toList
      (removePre "```sql".toList
        (stripChars ([bt, bt, bt, 's', 'q', 'l', '\n'] ++ b ++
          ['\n', bt, bt, bt]))))) = String.mk b
  rw [e1, hstrip1, ← e1]
  have hsql : "```sql".toList = [bt, bt, bt, 's', 'q', 'l'] := by decide
  have e2 : [bt, bt, bt, 's', 'q', 'l', '\n'] ++ b ++ ['\n', bt, bt, bt]
      = [bt, bt, bt, 's', 'q', 'l'] ++ ('\n' :: (b ++ ['\n', bt, bt, bt])) := by
    simp
  rw [hsql, e2, removePre_append]
  have htk : "```".toList = [bt, bt, bt] := by decide
  have e3 : '\n' :: (b ++ ['\n', bt, bt, bt])
      = ('\n' :: (b ++ ['\n'])) ++ [bt, bt, bt] := by
    simp
  rw [htk, e3, removeSuf_append, stripChars_nl_pad b hb1 hb2]

/-- C3, counterexample: a leading triple-backtick fence with no
language tag (the tag is optional per the claim) is not removed by the
sanitizer, so the claimed body is not returned. -/
theorem claim_C3_counterexample :
    sanitize "```\nSELECT 1\n```" ≠ "SELECT 1" := by
  decide

/-- C3 witness: the sql-tagged example of the spec sanitizes to its
body. -/
theorem claim_C3_witness : sanitize "```sql\nSELECT 1\n```" = "SELECT 1" := by
  have h := claim_C3_amended "SELECT 1".toList (by decide) (by decide)
  have he : String.mk ([bt, bt, bt, 's', 'q', 'l', '\n'] ++
      "SELECT 1".toList ++ ['\n', bt, bt, bt]) = "```sql\nSELECT 1\n```" := by
    decide
  have he2 : String.mk "SELECT 1".toList = "SELECT 1" := by decide
  rw [he, he2] at h
  exact h

/-- C4, amended: when the store or the `transactions` table is absent,
`get_schema` does not fail: connecting creates the store when missing
and the table-info query returns no rows, so the call returns normally
with the header line and an empty column list. -/
theorem claim_C4_amended :
    (∀ store : Option DBTable, ∃ txt, get_schema store = Except.ok txt) ∧
      get_schema none = Except.ok "table name: transactions\n" := by
  constructor
  · intro store
    exact ⟨_, rfl⟩
  · rfl

/-- C4, counterexample: with the store (hence the table) absent,
`get_schema` succeeds with a normal string instead of surfacing a
failure to the caller. -/
theorem claim_C4_counterexample :
    get_schema none = Except.ok "table name: transactions\n" ∧
      exceptIsOk (get_schema none) = true :=
  ⟨rfl, rfl⟩

/-- C5: in every generated log, for every product id, the row with the
smallest `id` among that product's rows has action `insert`, a non-null
unit price, and a positive quantity delta (the opening stock). -/
theorem claim_C5 {σ : Type} (G : RandomGen σ) (hG : G.Lawful) (s : σ)
    (N K : Nat) (clock : Nat → Nat) (p : Int) (r : Row)
    (hmem : r ∈ (create_transactions_db G s N K clock).rows)
    (hpid : r.product_id = p)
    (hmin : ∀ x ∈ (create_transactions_db G s N K clock).rows,
      x.product_id = p → r.id ≤ x.id) :
    r.action = "insert" ∧ 0 < r.qty_delta ∧ r.unit_price.isSome = true := by
  have hmem' : r ∈ addIds clock 0 (generateEvents G s N K) := hmem
  have hpair := @addIds_pairwise clock (generateEvents G s N K) 0
  have hhead : ((addIds clock 0 (generateEvents G s N K)).filter
      (fun x => x.product_id == p)).head? = some r :=
    head_filter_eq_of_min _ _ hpair r hmem' (by simp [hpid])
      (fun x hx hpx => hmin x hx (by simpa using hpx))
  have hev := @addIds_filter_head clock p (generateEvents G s N K) 0
  rw [hhead] at hev
  simp only [Option.map_some'] at hev
  have hev2 : (((eventsForCatalog G K (buildCatalog G N 1 s).1
      (buildCatalog G N 1 s).2).1).filter
        (fun e => e.product_id == p)).head? = some r.toEvent := hev.symm
  exact eventsForCatalog_filter_head hG K _ _ p r.toEvent hev2

/-- C5 witness: in the one-product demo store, the minimal-id row of
product 1 is its opening insert. -/
theorem claim_C5_witness :
    (demoDB.rows.headD dRow).action = "insert" ∧
      0 < (demoDB.rows.headD dRow).qty_delta ∧
      (demoDB.rows.headD dRow).unit_price.isSome = true :=
  claim_C5 (pickGen 0) (pickGen_lawful 0) () 1 1 (fun _ => 0) 1
    (demoDB.rows.headD dRow) demo_head_mem (by decide) (by decide)

/-- C6: every generated event's action is one of the four kinds;
`qty_delta` is positive on insert and restock, negative on sale, zero
on price_update; and `unit_price` is non-null exactly on insert, sale
and price_update and null on every restock. -/
theorem claim_C6 {σ : Type} (G : RandomGen σ) (hG : G.Lawful) (s : σ)
    (N K : Nat) (clock : Nat → Nat) (r : Row)
    (hr : r ∈ (create_transactions_db G s N K clock).rows) :
    (r.action = "insert" ∨ r.action = "restock" ∨ r.action = "sale" ∨
      r.action = "price_update") ∧
    (r.action = "insert" → 0 < r.qty_delta ∧ r.unit_price.isSome = true) ∧
    (r.action = "restock" → 0 < r.qty_delta ∧ r.unit_price = none) ∧
    (r.action = "sale" → r.qty_delta < 0 ∧ r.unit_price.isSome = true) ∧
    (r.action = "price_update" →
      r.qty_delta = 0 ∧ r.unit_price.isSome = true) := by
  obtain ⟨hmem, hins, hres, hsal, hpu⟩ := rows_inv hG s N K clock r hr
  refine ⟨hmem, ?_, ?_, ?_, hpu⟩
  · intro h
    obtain ⟨h1, h2, h3⟩ := hins h
    exact ⟨by omega, h3⟩
  · intro h
    obtain ⟨h1, h2, h3⟩ := hres h
    exact ⟨by omega, h3⟩
  · intro h
    obtain ⟨h1, h2, h3⟩ := hsal h
    exact ⟨by omega, h3⟩

/-- C6 witness: the demo store's single row satisfies the action and
price discipline. -/
theorem claim_C6_witness :
    ((demoDB.rows.headD dRow).action = "insert" ∨
      (demoDB.rows.headD dRow).action = "restock" ∨
      (demoDB.rows.headD dRow).action = "sale" ∨
      (demoDB.rows.headD dRow).action = "price_update") ∧
    ((demoDB.rows.headD dRow).action = "insert" →
      0 < (demoDB.rows.headD dRow).qty_delta ∧
      (demoDB.rows.headD dRow).unit_price.isSome = true) ∧
    ((demoDB.rows.headD dRow).action = "restock" →
      0 < (demoDB.rows.headD dRow).qty_delta ∧
      (demoDB.rows.headD dRow).unit_price = none) ∧
    ((demoDB.rows.headD dRow).action = "sale" →
      (demoDB.rows.headD dRow).qty_delta < 0 ∧
      (demoDB.rows.headD dRow).unit_price.isSome = true) ∧
    ((demoDB.rows.headD dRow).action = "price_update" →
      (demoDB.rows.headD dRow).qty_delta = 0 ∧
      (demoDB.rows.headD dRow).unit_price.isSome = true) :=
  claim_C6 (pickGen 0) (pickGen_lawful 0) () 1 1 (fun _ => 0)
    (demoDB.rows.headD dRow) demo_head_mem

/-- C7: a follow-up step that emits a `price_update` event emits
`qty_delta = 0` and `unit_price` equal to
`max 1 (round2 (current_price + delta))` for the drawn delta, and
updates the running current price to that value; a step that emits a
`sale` event emits `unit_price` equal to the running current price and
leaves that running price unchanged. -/
theorem claim_C7 {σ : Type} (G : RandomGen σ) (c : CatalogEntry) (cp : ℚ)
    (s : σ) :
    ((followupStep G c cp s).1.action = "price_update" →
      (followupStep G c cp s).1.qty_delta = 0 ∧
      (followupStep G c cp s).2.1
        = max 1 (round2 (cp + round2
            (G.uniform (-5) 5 (G.choicesW actionKinds actionWeights s).2).1)) ∧
      (followupStep G c cp s).1.unit_price
        = some ((followupStep G c cp s).2.1)) ∧
    ((followupStep G c cp s).1.action = "sale" →
      (followupStep G c cp s).1.unit_price = some cp ∧
      (followupStep G c cp s).2.1 = cp) := by
  simp only [followupStep]
  split_ifs with h1 h2
  · constructor
    · intro h
      simp at h
    · intro h
      simp at h
  · constructor
    · intro h
      simp at h
    · intro _
      exact ⟨rfl, rfl⟩
  · constructor
    · intro _
      exact ⟨rfl, rfl, rfl⟩
    · intro h
      simp at h

/-- C7 witness: a concrete price_update step (current price 20, delta
-5, new price 15) and a concrete sale step (price 20 carried and
unchanged). -/
theorem claim_C7_witness :
    ((followupStep (pickGen 2) cDemo 20 ()).1.qty_delta = 0 ∧
      (followupStep (pickGen 2) cDemo 20 ()).2.1
        = max 1 (round2 ((20 : ℚ) + round2
            ((pickGen 2).uniform (-5) 5
              ((pickGen 2).choicesW actionKinds actionWeights ()).2).1)) ∧
      (followupStep (pickGen 2) cDemo 20 ()).1.unit_price
        = some ((followupStep (pickGen 2) cDemo 20 ()).2.1)) ∧
    ((followupStep (pickGen 1) cDemo 20 ()).1.unit_price = some 20 ∧
      (followupStep (pickGen 1) cDemo 20 ()).2.1 = 20) :=
  ⟨(claim_C7 (pickGen 2) cDemo 20 ()).1 (by decide),
   (claim_C7 (pickGen 1) cDemo 20 ()).2 (by decide)⟩

/-- C8: for any store populated by the generator, `get_schema` returns
text whose first line is `table name: transactions` followed by one
`name (declared type)` line per column in declaration order, and the
column-name list is exactly id, product_id, product_name, brand,
category, color, action, qty_delta, unit_price, notes, ts. -/
theorem claim_C8 {σ : Type} (G : RandomGen σ) (s : σ) (N K : Nat)
    (clock : Nat → Nat) :
    ∃ txt, get_schema (some (create_transactions_db G s N K clock))
        = Except.ok txt ∧
      splitLines txt =
        ["table name: transactions", "id (INTEGER)", "product_id (INTEGER)",
         "product_name (TEXT)", "brand (TEXT)", "category (TEXT)",
         "color (TEXT)", "action (TEXT)", "qty_delta (INTEGER)",
         "unit_price (REAL)", "notes (TEXT)", "ts (DATETIME)"] ∧
      transactionsColumns.map Prod.fst =
        ["id", "product_id", "product_name", "brand", "category", "color",
         "action", "qty_delta", "unit_price", "notes", "ts"] := by
  rw [get_schema_some]
  rw [show (create_transactions_db G s N K clock).columns
      = transactionsColumns from rfl]
  exact ⟨_, rfl, by decide, by decide⟩

/-- C9: every call of `execute_sql` opens exactly one connection to the
store and closes it before returning, on the success path and on the
failure path alike. -/
theorem claim_C9
    (read_sql_query : String → Option DBTable → Except String QueryResult)
    (query : String) (db_path : Option DBTable) :
    (execute_sql_tr read_sql_query query db_path).2
      = [ConnEvent.openConn, ConnEvent.closeConn] := by
  rcases hE : read_sql_query (sanitize query) db_path with e | t <;>
    simp [execute_sql_tr, hE]

/-- C10: the generator draws quantities from fixed bounded ranges —
opening stock in [5, 50], restock delta in [1, 25], sale delta in
[-10, -1] — and a sale's quantity is independent of the derived stock,
so a product's event-sourced stock can become negative: a lawful
generator run is exhibited whose stock at cutoff 7 is below zero. -/
theorem claim_C10 :
    (∀ (σ : Type) (G : RandomGen σ), G.Lawful → ∀ (s : σ) (N K : Nat)
      (clock : Nat → Nat) (r : Row),
      r ∈ (create_transactions_db G s N K clock).rows →
      (r.action = "insert" → 5 ≤ r.qty_delta ∧ r.qty_delta ≤ 50) ∧
      (r.action = "restock" → 1 ≤ r.qty_delta ∧ r.qty_delta ≤ 25) ∧
      (r.action = "sale" → -10 ≤ r.qty_delta ∧ r.qty_delta ≤ -1)) ∧
    stockAt 1 7 (create_transactions_db (pickGen 1) () 1 7
      (fun _ => 0)).rows < 0 := by
  constructor
  · intro σ G hG s N K clock r hr
    obtain ⟨_, hins, hres, hsal, _⟩ := rows_inv hG s N K clock r hr
    exact ⟨fun h => ⟨(hins h).1, (hins h).2.1⟩,
      fun h => ⟨(hres h).1, (hres h).2.1⟩,
      fun h => ⟨(hsal h).1, (hsal h).2.1⟩⟩
  · decide

/-- C10 witness: the demo store's opening insert lies inside the
documented [5, 50] range. -/
theorem claim_C10_witness :
    5 ≤ (demoDB.rows.headD dRow).qty_delta ∧
      (demoDB.rows.headD dRow).qty_delta ≤ 50 :=
  (claim_C10.1 Unit (pickGen 0) (pickGen_lawful 0) () 1 1 (fun _ => 0)
    (demoDB.rows.headD dRow) demo_head_mem).1 (by decide)

end Ledger
